import Mathlib

/-!
Verification of the CogniPath backend (`backend/main.py`).

The development shallowly embeds the Python source:

* JSON values (results of Python `json.loads`) become the inductive type `Json`;
  numbers keep their source lexeme, and the one piece of numeric semantics
  any property needs — whether the decoded `int`/`float` is zero, for
  truthiness — is decided exactly from the lexeme, including binary64
  underflow (`pyNumZero`), with no floating-point arithmetic.
* `json.loads` becomes the fuel-based recursive-descent parser `json_loads`,
  following the grammar accepted by Python's `json` module (objects, arrays,
  strings with escapes, numbers, `true`/`false`/`null`, and the Python
  extensions `NaN`/`Infinity`/`-Infinity`); decode errors become `none`.
* `re.search(r"{.*}", text, re.DOTALL)` becomes `re_search_braces`: the
  leftmost match of that greedy pattern is the span from the first `{` to the
  last `}` of the whole string, when the last `}` lies after the first `{`.
* The job registry `JOBS`, the orchestrator `process_job` and the endpoints
  become a state-transition system: each transition is one maximal
  suspension-free segment of the cooperative (asyncio) scheduler, so the
  states of the relation are exactly the externally observable states.
-/

/-- A decoded JSON value, as produced by Python `json.loads`.
Numbers are kept as their source lexeme; objects are key/value lists in
insertion order with unique keys (duplicate keys overwrite, as in a Python
dict). -/
inductive Json where
  | null
  | bool (b : Bool)
  | num (lexeme : String)
  | str (s : String)
  | arr (elems : List Json)
  | obj (fields : List (String × Json))

/-- JSON whitespace skipped by Python's `json` module (`[ \t\n\r]*`). -/
def jsonWs (c : Char) : Bool :=
  c = ' ' || c = '\t' || c = '\n' || c = '\r'

/-- Skip JSON whitespace. -/
def skipWs (cs : List Char) : List Char :=
  cs.dropWhile jsonWs

/-- Value of a hexadecimal digit, if `c` is one. -/
def hexVal? (c : Char) : Option Nat :=
  let n := c.toNat
  if 48 ≤ n ∧ n ≤ 57 then some (n - 48)
  else if 65 ≤ n ∧ n ≤ 70 then some (n - 55)
  else if 97 ≤ n ∧ n ≤ 102 then some (n - 87)
  else none

/-- Python `dict` insertion: replace the value of an existing key in place,
otherwise append the new pair at the end (insertion order preserved). -/
def insertKV : List (String × Json) → String → Json → List (String × Json)
  | [], key, v => [(key, v)]
  | (k, w) :: t, key, v =>
    if k = key then (k, v) :: t else (k, w) :: insertKV t key v

/-- Body of a JSON string after the opening quote, per Python's strict JSON
string scanner: raw control characters are rejected, the escapes
`\" \\ \/ \b \f \n \r \t \uXXXX` are decoded, and `\uXXXX` surrogate pairs
are combined.  (Python keeps an unpaired surrogate as a lone surrogate
code unit in the resulting `str`; Lean strings cannot hold lone surrogates,
so the model maps such a code unit to U+FFFD — no claim depends on it.)
Returns the decoded string and the input after the closing quote. -/
def parseStringAux : Nat → List Char → List Char → Option (String × List Char)
  | 0, _, _ => none
  | fuel + 1, acc, cs =>
    match cs with
    | [] => none
    | c :: rest =>
      if c = '"' then some (String.mk acc.reverse, rest)
      else if c = '\\' then
        match rest with
        | [] => none
        | e :: rest2 =>
          if e = '"' then parseStringAux fuel ('"' :: acc) rest2
          else if e = '\\' then parseStringAux fuel ('\\' :: acc) rest2
          else if e = '/' then parseStringAux fuel ('/' :: acc) rest2
          else if e = 'b' then parseStringAux fuel ('\x08' :: acc) rest2
          else if e = 'f' then parseStringAux fuel ('\x0C' :: acc) rest2
          else if e = 'n' then parseStringAux fuel ('\n' :: acc) rest2
          else if e = 'r' then parseStringAux fuel ('\x0D' :: acc) rest2
          else if e = 't' then parseStringAux fuel ('\t' :: acc) rest2
          else if e = 'u' then
            match rest2 with
            | h1 :: h2 :: h3 :: h4 :: rest3 =>
              match hexVal? h1, hexVal? h2, hexVal? h3, hexVal? h4 with
              | some a, some b, some c2, some d =>
                let n := ((a * 16 + b) * 16 + c2) * 16 + d
                if 0xD800 ≤ n ∧ n ≤ 0xDBFF then
                  match rest3 with
                  | '\\' :: 'u' :: g1 :: g2 :: g3 :: g4 :: rest4 =>
                    match hexVal? g1, hexVal? g2, hexVal? g3, hexVal? g4 with
                    | some a2, some b2, some c3, some d2 =>
                      let m := ((a2 * 16 + b2) * 16 + c3) * 16 + d2
                      if 0xDC00 ≤ m ∧ m ≤ 0xDFFF then
                        let code := 0x10000 + (n - 0xD800) * 0x400 + (m - 0xDC00)
                        parseStringAux fuel (Char.ofNat code :: acc) rest4
                      else
                        parseStringAux fuel (Char.ofNat 0xFFFD :: acc)
                          ('\\' :: 'u' :: g1 :: g2 :: g3 :: g4 :: rest4)
                    | _, _, _, _ =>
                      parseStringAux fuel (Char.ofNat 0xFFFD :: acc) rest3
                  | _ => parseStringAux fuel (Char.ofNat 0xFFFD :: acc) rest3
                else if 0xDC00 ≤ n ∧ n ≤ 0xDFFF then
                  parseStringAux fuel (Char.ofNat 0xFFFD :: acc) rest3
                else
                  parseStringAux fuel (Char.ofNat n :: acc) rest3
              | _, _, _, _ => none
            | _ => none
          else none
      else if c.toNat < 0x20 then none
      else parseStringAux fuel (c :: acc) rest

/-- Split off a maximal run of decimal digits. -/
def digitSpan (cs : List Char) : List Char × List Char :=
  (cs.takeWhile Char.isDigit, cs.dropWhile Char.isDigit)

/-- Optional fraction part `(\.\d+)?` of Python's JSON number regex:
a dot is consumed only when followed by at least one digit. -/
def fracSpan (cs : List Char) : List Char × List Char :=
  match cs with
  | '.' :: r =>
    let (ds, r2) := digitSpan r
    if ds.isEmpty then ([], cs) else ('.' :: ds, r2)
  | _ => ([], cs)

/-- Optional exponent part `([eE][-+]?\d+)?` of Python's JSON number regex:
`e`/`E` (and an optional sign) are consumed only when digits follow. -/
def expSpan (cs : List Char) : List Char × List Char :=
  match cs with
  | e :: r =>
    if e = 'e' ∨ e = 'E' then
      match r with
      | s :: r2 =>
        if s = '+' ∨ s = '-' then
          let (ds, r3) := digitSpan r2
          if ds.isEmpty then ([], cs) else (e :: s :: ds, r3)
        else
          let (ds, r3) := digitSpan r
          if ds.isEmpty then ([], cs) else (e :: ds, r3)
      | [] => ([], cs)
    else ([], cs)
  | [] => ([], cs)

/-- A JSON number at the head of the input, per Python's JSON number
regex `(-?(?:0|[1-9]\d*))(\.\d+)?([eE][-+]?\d+)?` (no leading zeros).
Returns the matched lexeme and the rest. -/
def parseNumber (cs : List Char) : Option (String × List Char) :=
  let signed : List Char × List Char :=
    match cs with
    | '-' :: r => (['-'], r)
    | _ => ([], cs)
  match signed.2 with
  | [] => none
  | c :: r =>
    if c = '0' then
      let (frac, cs2) := fracSpan r
      let (ex, cs3) := expSpan cs2
      some (String.mk (signed.1 ++ '0' :: (frac ++ ex)), cs3)
    else if c.isDigit then
      let (ds, r2) := digitSpan signed.2
      let (frac, cs2) := fracSpan r2
      let (ex, cs3) := expSpan cs2
      some (String.mk (signed.1 ++ ds ++ frac ++ ex), cs3)
    else none

mutual

/-- One JSON value at the head of the input (whitespace already skipped),
as accepted by Python's `json` scanner, including the non-standard
constants `NaN`, `Infinity` and `-Infinity` that `json.loads` accepts by
default. -/
def parseValue : Nat → List Char → Option (Json × List Char)
  | 0, _ => none
  | fuel + 1, cs =>
    match cs with
    | [] => none
    | '{' :: rest =>
      (match skipWs rest with
       | '}' :: r => some (Json.obj [], r)
       | cs1 => parseMembers fuel cs1 [])
    | '[' :: rest =>
      (match skipWs rest with
       | ']' :: r => some (Json.arr [], r)
       | cs1 => parseElems fuel cs1 [])
    | '"' :: rest =>
      (parseStringAux (rest.length + 1) [] rest).map (fun p => (Json.str p.1, p.2))
    | 't' :: 'r' :: 'u' :: 'e' :: rest => some (Json.bool true, rest)
    | 'f' :: 'a' :: 'l' :: 's' :: 'e' :: rest => some (Json.bool false, rest)
    | 'n' :: 'u' :: 'l' :: 'l' :: rest => some (Json.null, rest)
    | 'N' :: 'a' :: 'N' :: rest => some (Json.num "NaN", rest)
    | 'I' :: 'n' :: 'f' :: 'i' :: 'n' :: 'i' :: 't' :: 'y' :: rest =>
      some (Json.num "Infinity", rest)
    | '-' :: 'I' :: 'n' :: 'f' :: 'i' :: 'n' :: 'i' :: 't' :: 'y' :: rest =>
      some (Json.num "-Infinity", rest)
    | _ => (parseNumber cs).map (fun p => (Json.num p.1, p.2))

/-- Members of a non-empty JSON object, starting at the first key
(whitespace skipped); keys accumulate by Python-dict insertion. -/
def parseMembers : Nat → List Char → List (String × Json) →
    Option (Json × List Char)
  | 0, _, _ => none
  | fuel + 1, cs, acc =>
    match cs with
    | '"' :: rest =>
      (match parseStringAux (rest.length + 1) [] rest with
       | none => none
       | some (key, cs1) =>
         match skipWs cs1 with
         | ':' :: cs2 =>
           (match parseValue fuel (skipWs cs2) with
            | none => none
            | some (v, cs3) =>
              (match skipWs cs3 with
               | ',' :: cs4 => parseMembers fuel (skipWs cs4) (insertKV acc key v)
               | '}' :: cs5 => some (Json.obj (insertKV acc key v), cs5)
               | _ => none))
         | _ => none)
    | _ => none

/-- Elements of a non-empty JSON array, starting at the first element
(whitespace skipped). -/
def parseElems : Nat → List Char → List Json → Option (Json × List Char)
  | 0, _, _ => none
  | fuel + 1, cs, acc =>
    match parseValue fuel cs with
    | none => none
    | some (v, cs1) =>
      match skipWs cs1 with
      | ',' :: cs2 => parseElems fuel (skipWs cs2) (v :: acc)
      | ']' :: cs3 => some (Json.arr (v :: acc).reverse, cs3)
      | _ => none

end

/-- Model of Python `json.loads`: skip surrounding whitespace, parse exactly
one value, reject trailing data; `none` is a raised `JSONDecodeError`.
Two fuel units per character bound the recursion depth, since every two
nested parser calls consume at least one character. -/
def json_loads (s : String) : Option Json :=
  let cs := skipWs s.toList
  match parseValue (2 * cs.length + 2) cs with
  | some (v, rest) => if (skipWs rest).isEmpty then some v else none
  | none => none

/-- The part of `l` up to and including the last occurrence of `a`
(up to the first occurrence seen from the right). -/
def takeToLast (a : Char) (l : List Char) : List Char :=
  (l.reverse.dropWhile (fun c => c != a)).reverse

/-- Model of `re.search(r"{.*}", text, re.DOTALL)`, returning the matched
group.  The leftmost match of this greedy pattern starts at the first `{`
of the string (a later `{` with a `}` after it would put that `}` after the
first `{` too) and `.*` greedily extends the match to the last `}` of the
whole string.  `none` is a failed search. -/
def re_search_braces (text : String) : Option String :=
  match text.toList.dropWhile (fun c => c != '{') with
  | [] => none
  | c :: rest =>
    if rest.contains '}' then some (String.mk (c :: takeToLast '}' rest))
    else none

/-- Source lines 54–61, `extract_json`: search `text` for the greedy
`{.*}` span and decode it with `json.loads`; on a failed search or a
decode error (the `except` branch) return the empty dict. -/
def extract_json (text : String) : Json :=
  match re_search_braces text with
  | some s =>
    match json_loads s with
    | some v => v
    | none => Json.obj []
  | none => Json.obj []

/-- Index of the first occurrence of `a`, if any (specification-side). -/
def firstIdx? (a : Char) : List Char → Option Nat
  | [] => none
  | c :: t => if c = a then some 0 else (firstIdx? a t).map (· + 1)

/-- The span the specification describes: from the first `{` of the text to
the last `}` of the text (the widest such span), provided that last `}`
lies strictly after that first `{`. -/
def specSpan (text : String) : Option String :=
  match firstIdx? '{' text.toList, firstIdx? '}' text.toList.reverse with
  | some i, some k =>
    if i < text.toList.length - 1 - k then
      some (String.mk ((text.toList.drop i).take (text.toList.length - 1 - k - i + 1)))
    else none
  | _, _ => none

/-- The Structured Extractor as the specification words it: decode the
widest first-`{`-to-last-`}` span as JSON; absence of a span or a decode
failure yields the empty mapping. -/
def specExtract (text : String) : Json :=
  match specSpan text with
  | some s =>
    match json_loads s with
    | some v => v
    | none => Json.obj []
  | none => Json.obj []

/-- Value of a run of decimal digits. -/
def digitsToNat (ds : List Char) : Nat :=
  ds.foldl (fun n c => n * 10 + (c.toNat - 48)) 0

/-- Whether Python decodes the JSON number lexeme `lex` to a zero value.
A lexeme without fraction and exponent decodes to `int`, zero exactly when
all its digits are `0`.  Otherwise it decodes to `float(lex)`, the
correctly-rounded (round-half-even) IEEE-754 binary64 value: writing the
magnitude exactly as `D * 10 ^ E` with `D` the mantissa digits and `E` the
decimal exponent, the conversion underflows to `0.0` exactly when
`D * 10 ^ E ≤ 2 ^ (-1075)` — the midpoint below the smallest subnormal
`2 ^ (-1074)` ties to the even mantissa, zero — so literals such as
`1e-400` are zero.  After splitting off `D = 0` (exact zeros, also the
`int` case) and `E ≥ 0` (magnitude at least 1), zero-ness is the one exact
integer comparison `D * 2 ^ 1075 ≤ 10 ^ (-E)`; no floating-point
arithmetic is involved. -/
def pyNumZero (lex : String) : Bool :=
  let cs := match lex.toList with
    | '-' :: r => r
    | r => r
  let ip := cs.takeWhile Char.isDigit
  let rest := cs.dropWhile Char.isDigit
  let fp := match rest with
    | '.' :: r => r.takeWhile Char.isDigit
    | _ => []
  let rest2 := match rest with
    | '.' :: r => r.dropWhile Char.isDigit
    | _ => rest
  let expVal : Int := match rest2 with
    | _ :: '+' :: d => Int.ofNat (digitsToNat d)
    | _ :: '-' :: d => -Int.ofNat (digitsToNat d)
    | _ :: d => Int.ofNat (digitsToNat d)
    | [] => 0
  let D := digitsToNat (ip ++ fp)
  if D = 0 then true
  else
    let E : Int := expVal - Int.ofNat fp.length
    if 0 ≤ E then false
    else decide (D * 2 ^ 1075 ≤ 10 ^ (-E).toNat)

/-- Python truthiness of a decoded JSON value: `None`, `False`, numeric
zero (an `int` zero, or a `float` literal whose correctly rounded binary64
value is `0.0`, including underflowing literals such as `1e-400`), and
empty strings/lists/dicts are falsy; `NaN` and the infinities are truthy. -/
def falsy : Json → Bool
  | .null => true
  | .bool b => !b
  | .num lex =>
    if lex = "NaN" ∨ lex = "Infinity" ∨ lex = "-Infinity" then false
    else pyNumZero lex
  | .str s => s = ""
  | .arr xs => xs.isEmpty
  | .obj kvs => kvs.isEmpty

/-- Truthiness of a Python expression that may be `None` (e.g. the result
of `dict.get` on a missing key). -/
def falsyOpt : Option Json → Bool
  | none => true
  | some v => falsy v

set_option exponentiation.threshold 1200 in
set_option maxRecDepth 4000 in
/-- Fidelity checks of the numeric truthiness model against Python's float
semantics: `1e-400` and `1e-324` underflow to `0.0` (falsy), `5e-324` is
the smallest subnormal (truthy), exact zeros of either numeric type are
falsy, and `NaN` is truthy. -/
theorem falsy_num_float_semantics :
    falsy (Json.num "1e-400") = true
    ∧ falsy (Json.num "1e-324") = true
    ∧ falsy (Json.num "5e-324") = false
    ∧ falsy (Json.num "0.0") = true
    ∧ falsy (Json.num "-0") = true
    ∧ falsy (Json.num "2.5") = false
    ∧ falsy (Json.num "NaN") = false := by
  refine ⟨?_, ?_, ?_, ?_, ?_, ?_, ?_⟩ <;> decide

/-- Assoc-list lookup with string keys (Python dict read). -/
def lookupKV : List (String × Json) → String → Option Json
  | [], _ => none
  | (k, v) :: t, key => if k = key then some v else lookupKV t key

/-- Python `d.get(key)`: `none` models `None` for a missing key (and for a
non-dict receiver, which cannot occur in the orchestrator). -/
def dget : Json → String → Option Json
  | .obj kvs, key => lookupKV kvs key
  | _, _ => none

/-- Python `d[key] = v` on a dict value; identity on non-dicts (unreachable
in the orchestrator). -/
def dset : Json → String → Json → Json
  | .obj kvs, key, v => .obj (insertKV kvs key v)
  | j, _, _ => j

/-- The fixed fallback graph of source line 116. -/
def fallback_graph : Json :=
  .obj [("nodes", .arr [.obj [("id", .str "n1"), ("label", .str "Key concepts")]]),
        ("edges", .arr [])]

/-- Source lines 115–116: if `graph_json.get("nodes")` is falsy, replace the
whole dict by the fallback graph. -/
def normalize_graph (graph_json : Json) : Json :=
  if falsyOpt (dget graph_json "nodes") then fallback_graph else graph_json

/-- Source lines 119–122: if `quiz_json.get("mcq")` is falsy set it to `[]`,
then likewise for `"flashcards"`. -/
def normalize_quiz (quiz_json : Json) : Json :=
  let q1 := if falsyOpt (dget quiz_json "mcq") then dset quiz_json "mcq" (.arr []) else quiz_json
  if falsyOpt (dget q1 "flashcards") then dset q1 "flashcards" (.arr []) else q1

/-- Source lines 45–52, `generate_with_gemini`: the external generative call
either returns text (`.ok`, the value of `response.text`) or raises
(`.error`, carrying `str(e)`); a raise is caught and replaced by the
sentinel string, so the client itself never raises. -/
def generate_with_gemini : Except String String → String
  | .ok text => text
  | .error _ => "Error generating content"

/-- Python whitespace for `str.strip()` (ASCII whitespace, the C1 space
controls, and the Unicode space characters). -/
def pyIsSpace (c : Char) : Bool :=
  [9, 10, 11, 12, 13, 28, 29, 30, 31, 32, 133, 160, 5760,
   8192, 8193, 8194, 8195, 8196, 8197, 8198, 8199, 8200, 8201, 8202,
   8232, 8233, 8239, 8287, 12288].contains c.toNat

/-- Python `s.strip()`: remove leading and trailing whitespace. -/
def py_strip (s : String) : String :=
  String.mk (((s.toList.dropWhile pyIsSpace).reverse.dropWhile pyIsSpace).reverse)

/-- Source line 69: the summarization prompt. -/
def summary_prompt (content : String) : String :=
  "Summarize in simple terms:\n\n" ++ content

/-- Source lines 71–80: the concept-graph prompt (its braces are literal
text of the prompt). -/
def graph_prompt (content : String) : String :=
  "\nExtract the key concepts from the following text and return a JSON object formatted as a mind map.\nFormat strictly as:\n\x7b\n  \"nodes\": [\x7b\"id\": \"n1\", \"label\": \"concept1\"\x7d, ...],\n  \"edges\": [\x7b\"from\": \"n1\", \"to\": \"n2\"\x7d, ...]\n\x7d\nText:\n" ++ content ++ "\n"

/-- Source lines 82–104: the quiz prompt (its braces are literal text of
the prompt). -/
def quiz_prompt (content : String) : String :=
  "\nGenerate educational content from the following text. Return a JSON object with exactly:\n\x7b\n  \"mcq\": [\n    \x7b\n      \"question\": \"Your question here\",\n      \"options\": [\"A)\", \"B)\", \"C)\", \"D)\"],\n      \"answer\": \"Correct option letter\"\n    \x7d,\n    ...\n  ],\n  \"flashcards\": [\n    \x7b\n      \"front\": \"Question front text\",\n      \"back\": \"Answer back text\"\n    \x7d,\n    ...\n  ]\n\x7d\nMake sure all MCQs have 4 options labeled A, B, C, D and include 2 flashcards.\nText:\n" ++ content ++ "\n"

/-- Source lines 39–43, `save_tts_mp3`: the path the synthesized audio is
written to, `os.path.join(GENERATED_DIR, f"{filename}.mp3")`. -/
def save_tts_mp3_path (filename : String) : String :=
  "generated/" ++ filename ++ ".mp3"

/-! ### The Structured Extractor takes the widest brace span (C3) -/

theorem dropWhile_ne_eq_drop (a : Char) : ∀ cs : List Char,
    cs.dropWhile (fun c => c != a) = cs.drop ((firstIdx? a cs).getD cs.length)
  | [] => rfl
  | c :: t => by
    by_cases h : c = a
    · subst h
      simp [List.dropWhile_cons, firstIdx?]
    · have ih := dropWhile_ne_eq_drop a t
      have hb : (c != a) = true := by simp [h]
      simp only [List.dropWhile_cons, hb, if_true, firstIdx?, if_neg h]
      cases hf : firstIdx? a t with
      | none => simp [hf] at ih; simpa using ih
      | some i => simp [hf] at ih; simpa using ih

theorem firstIdx?_eq_none_iff (a : Char) (l : List Char) :
    firstIdx? a l = none ↔ a ∉ l := by
  induction l with
  | nil => simp [firstIdx?]
  | cons c t ih =>
    by_cases h : c = a
    · subst h; simp [firstIdx?]
    · simp [firstIdx?, if_neg h, ih, Ne.symm h, h]

theorem firstIdx?_spec (a : Char) : ∀ (l : List Char) (i : Nat),
    firstIdx? a l = some i → i < l.length ∧ l[i]? = some a ∧ ∀ m, m < i → l[m]? ≠ some a := by
  intro l
  induction l with
  | nil => intro i h; simp [firstIdx?] at h
  | cons c t ih =>
    intro i h
    by_cases hc : c = a
    · subst hc
      simp [firstIdx?] at h
      subst h
      simp
    · simp [firstIdx?, if_neg hc] at h
      obtain ⟨i', hi', rfl⟩ := h
      obtain ⟨h1, h2, h3⟩ := ih i' hi'
      refine ⟨by simpa using h1, by simpa using h2, ?_⟩
      intro m hm
      cases m with
      | zero => simpa using hc
      | succ m' => simpa using h3 m' (by omega)

theorem firstIdx?_take (a : Char) : ∀ (l : List Char) (i n : Nat),
    firstIdx? a l = some i → i < n → firstIdx? a (l.take n) = some i := by
  intro l
  induction l with
  | nil => intro i n h; simp [firstIdx?] at h
  | cons c t ih =>
    intro i n h hin
    by_cases hc : c = a
    · subst hc
      simp [firstIdx?] at h
      subst h
      cases n with
      | zero => omega
      | succ n' => simp [List.take, firstIdx?]
    · simp [firstIdx?, if_neg hc] at h
      obtain ⟨i', hi', rfl⟩ := h
      cases n with
      | zero => omega
      | succ n' =>
        simp [List.take, firstIdx?, if_neg hc]
        exact ih i' n' hi' (by omega)

theorem specSpan_eq_some_some (text : String) (i k : Nat)
    (h1 : firstIdx? '{' text.toList = some i)
    (h2 : firstIdx? '}' text.toList.reverse = some k) :
    specSpan text =
      if i < text.toList.length - 1 - k then
        some (String.mk ((text.toList.drop i).take (text.toList.length - 1 - k - i + 1)))
      else none := by
  unfold specSpan
  rw [h1, h2]

theorem re_search_braces_eq_specSpan (text : String) :
    re_search_braces text = specSpan text := by
  cases hf : firstIdx? '{' text.toList with
  | none =>
    have hd : text.toList.dropWhile (fun c => c != '{') = [] := by
      rw [dropWhile_ne_eq_drop, hf]
      simp
    unfold re_search_braces specSpan
    rw [hd, hf]
  | some i =>
    obtain ⟨hilt, higet, _⟩ := firstIdx?_spec _ _ _ hf
    have hbrace : text.toList[i] = '{' := by
      rw [List.getElem?_eq_getElem hilt] at higet
      exact Option.some.inj higet
    have hdec : text.toList.drop i = text.toList[i] :: text.toList.drop (i + 1) :=
      List.drop_eq_getElem_cons hilt
    have hd : text.toList.dropWhile (fun c => c != '{') =
        text.toList[i] :: text.toList.drop (i + 1) := by
      rw [dropWhile_ne_eq_drop, hf]
      exact hdec
    have key : re_search_braces text =
        if (text.toList.drop (i + 1)).contains '}' then
          some (String.mk (text.toList[i] :: takeToLast '}' (text.toList.drop (i + 1))))
        else none := by
      unfold re_search_braces
      rw [hd]
    cases hg : firstIdx? '}' text.toList.reverse with
    | none =>
      have hnm : '}' ∉ text.toList.reverse := (firstIdx?_eq_none_iff _ _).mp hg
      have hmem : '}' ∉ text.toList.drop (i + 1) := by
        intro hm
        exact hnm (by simpa using List.mem_of_mem_drop hm)
      have hcont : (text.toList.drop (i + 1)).contains '}' = false := by
        simpa using hmem
      rw [key, hcont]
      unfold specSpan
      rw [hf, hg]
      simp
    | some k =>
      obtain ⟨hklt, hkget, hkmin⟩ := firstIdx?_spec _ _ _ hg
      rw [List.length_reverse] at hklt
      have hjget : text.toList[text.toList.length - 1 - k]? = some '}' := by
        rw [List.getElem?_reverse (by omega)] at hkget
        exact hkget
      rw [specSpan_eq_some_some text i k hf hg, key]
      by_cases hij : i < text.toList.length - 1 - k
      · -- the last '}' lies after the first '{'
        have hcont : (text.toList.drop (i + 1)).contains '}' = true := by
          have : (text.toList.drop (i + 1))[text.toList.length - 1 - k - (i + 1)]? = some '}' := by
            rw [List.getElem?_drop]
            have : i + 1 + (text.toList.length - 1 - k - (i + 1)) = text.toList.length - 1 - k := by
              omega
            rw [this]
            exact hjget
          have hm : '}' ∈ text.toList.drop (i + 1) := by
            rw [List.mem_iff_getElem?]
            exact ⟨_, this⟩
          simpa using hm
        rw [hcont, if_pos hij]
        -- both sides are some; compare the spans
        have hrev : (text.toList.drop (i + 1)).reverse =
            text.toList.reverse.take (text.toList.length - (i + 1)) := by
          rw [List.reverse_drop]
        have hkn : k < text.toList.length - (i + 1) := by omega
        have hfi : firstIdx? '}' ((text.toList.drop (i + 1)).reverse) = some k := by
          rw [hrev]
          exact firstIdx?_take '}' _ k _ hg hkn
        have htl : takeToLast '}' (text.toList.drop (i + 1)) =
            (text.toList.drop (i + 1)).take ((text.toList.drop (i + 1)).length - k) := by
          unfold takeToLast
          rw [dropWhile_ne_eq_drop, hfi]
          simp only [Option.getD_some]
          rw [List.reverse_drop, List.reverse_reverse, List.length_reverse]
        have hlen : (text.toList.drop (i + 1)).length = text.toList.length - (i + 1) := by
          simp
        rw [htl, hlen]
        rw [hdec]
        have harith : text.toList.length - 1 - k - i + 1 =
            (text.toList.length - (i + 1) - k) + 1 := by omega
        rw [harith]
        rw [List.take_succ_cons]
        simp
      · -- the last '}' is at or before the first '{': no match
        have hcont : (text.toList.drop (i + 1)).contains '}' = false := by
          by_contra hcc
          have hct : (text.toList.drop (i + 1)).contains '}' = true :=
            eq_true_of_ne_false hcc
          have hmem : '}' ∈ text.toList.drop (i + 1) := by simpa using hct
          rw [List.mem_iff_getElem?] at hmem
          obtain ⟨m, hm⟩ := hmem
          rw [List.getElem?_drop] at hm
          have hmlt : i + 1 + m < text.toList.length := by
            by_contra hge
            rw [List.getElem?_eq_none (by omega)] at hm
            exact Option.noConfusion hm
          have hik : text.toList.length - 1 - k ≤ i := by omega
          have hmk : m < k := by omega
          have hlk : text.toList.length - 1 - (i + 1 + m) < k := by omega
          have hrevm : text.toList.reverse[text.toList.length - 1 - (i + 1 + m)]? = some '}' := by
            rw [List.getElem?_reverse (by omega)]
            have heq : text.toList.length - 1 - (text.toList.length - 1 - (i + 1 + m)) =
                i + 1 + m := by omega
            rw [heq]
            exact hm
          exact hkmin _ hlk hrevm
        rw [hcont, if_neg hij]
        simp

/-- Claim C3. For every input string, the Structured Extractor takes the widest
span from the first `{` to the last `}` and decodes it: if that span is a
well-formed JSON object it returns it decoded, and if there is no such span
or the span is malformed JSON it returns the empty mapping (`extract_json`
is a total function, so it never raises). -/
theorem extract_json_takes_widest_span (text : String) :
    extract_json text = specExtract text := by
  unfold extract_json specExtract
  rw [re_search_braces_eq_specSpan]

/-! ### Orchestrator normalization (C4) and the generation client (C5) -/

theorem lookupKV_insertKV_self (l : List (String × Json)) (k : String) (v : Json) :
    lookupKV (insertKV l k v) k = some v := by
  induction l with
  | nil => simp [insertKV, lookupKV]
  | cons p t ih =>
    by_cases h : p.1 = k
    · simp [insertKV, lookupKV, h]
    · simp [insertKV, lookupKV, h, ih]

theorem lookupKV_insertKV_ne (l : List (String × Json)) (k k' : String) (v : Json)
    (h : k' ≠ k) :
    lookupKV (insertKV l k v) k' = lookupKV l k' := by
  induction l with
  | nil => simp [insertKV, lookupKV, Ne.symm h]
  | cons p t ih =>
    by_cases hp : p.1 = k
    · simp [insertKV, lookupKV, hp, Ne.symm h]
    · by_cases hp' : p.1 = k'
      · simp [insertKV, lookupKV, hp, hp', h]
      · simp [insertKV, lookupKV, hp, hp', ih]

/-- The property the claim asserts triggers the fallback when absent: the
extracted mapping has a non-empty `nodes` sequence. -/
def hasNonemptyNodesSeq (g : Json) : Bool :=
  match dget g "nodes" with
  | some (.arr (_ :: _)) => true
  | _ => false

/-- Claim C4, counterexample. The extractor output `{"nodes": true}` lacks a
non-empty `nodes` *sequence*, yet the orchestrator's normalization passes it
through unchanged instead of substituting the fallback graph: the code tests
Python truthiness of the `nodes` value, not sequence-ness. -/
theorem normalization_claim_counterexample :
    extract_json "\x7b\"nodes\": true\x7d" = Json.obj [("nodes", Json.bool true)]
    ∧ hasNonemptyNodesSeq (Json.obj [("nodes", Json.bool true)]) = false
    ∧ normalize_graph (Json.obj [("nodes", Json.bool true)]) =
        Json.obj [("nodes", Json.bool true)]
    ∧ Json.obj [("nodes", Json.bool true)] ≠ fallback_graph := by
  refine ⟨rfl, rfl, rfl, ?_⟩
  intro h
  simp [fallback_graph] at h

/-- Characterization of `normalize_quiz` on a dict at the assoc-list level:
`mcq` is defaulted first, then `flashcards` (whose lookup is unaffected by
the `mcq` insertion). -/
theorem normalize_quiz_obj_eq (qkvs : List (String × Json)) :
    normalize_quiz (Json.obj qkvs) =
      (if falsyOpt (lookupKV qkvs "flashcards") then
        Json.obj (insertKV
          (if falsyOpt (lookupKV qkvs "mcq") then insertKV qkvs "mcq" (Json.arr []) else qkvs)
          "flashcards" (Json.arr []))
      else
        Json.obj
          (if falsyOpt (lookupKV qkvs "mcq") then insertKV qkvs "mcq" (Json.arr []) else qkvs)) := by
  have hfm : ("flashcards" : String) ≠ "mcq" := by decide
  unfold normalize_quiz
  by_cases hm : falsyOpt (lookupKV qkvs "mcq") = true
  · have hfl : lookupKV (insertKV qkvs "mcq" (Json.arr [])) "flashcards" =
        lookupKV qkvs "flashcards" := lookupKV_insertKV_ne _ _ _ _ hfm
    by_cases hf : falsyOpt (lookupKV qkvs "flashcards") = true
    · simp [dget, dset, hm, hfl, hf]
    · simp [dget, dset, hm, hfl, hf]
  · by_cases hf : falsyOpt (lookupKV qkvs "flashcards") = true
    · simp [dget, dset, hm, hf]
    · simp [dget, dset, hm, hf]

/-- Claim C4, amended. The committed graph equals the fallback exactly when
the extracted mapping's `nodes` value is absent or Python-falsy (and is the
extracted mapping unchanged otherwise); the quiz's `mcq` and `flashcards`
are each replaced by the empty sequence exactly when absent or Python-falsy
and are kept unchanged otherwise, independently of each other. -/
theorem normalization_amended (gkvs qkvs : List (String × Json)) :
    (falsyOpt (dget (Json.obj gkvs) "nodes") = true →
      normalize_graph (Json.obj gkvs) = fallback_graph)
    ∧ (falsyOpt (dget (Json.obj gkvs) "nodes") = false →
      normalize_graph (Json.obj gkvs) = Json.obj gkvs)
    ∧ dget (normalize_quiz (Json.obj qkvs)) "mcq" =
        (if falsyOpt (dget (Json.obj qkvs) "mcq") then some (Json.arr [])
         else dget (Json.obj qkvs) "mcq")
    ∧ dget (normalize_quiz (Json.obj qkvs)) "flashcards" =
        (if falsyOpt (dget (Json.obj qkvs) "flashcards") then some (Json.arr [])
         else dget (Json.obj qkvs) "flashcards")
    ∧ (falsyOpt (dget (Json.obj qkvs) "mcq") = false →
       falsyOpt (dget (Json.obj qkvs) "flashcards") = false →
       normalize_quiz (Json.obj qkvs) = Json.obj qkvs) := by
  have hmf : ("mcq" : String) ≠ "flashcards" := by decide
  have hfm : ("flashcards" : String) ≠ "mcq" := by decide
  refine ⟨?_, ?_, ?_, ?_, ?_⟩
  · intro h
    simp [normalize_graph, h]
  · intro h
    simp [normalize_graph, h]
  · rw [normalize_quiz_obj_eq]
    by_cases hf : falsyOpt (lookupKV qkvs "flashcards") = true
    · by_cases hm : falsyOpt (lookupKV qkvs "mcq") = true
      · simp [dget, hf, hm, lookupKV_insertKV_ne _ _ _ _ hmf, lookupKV_insertKV_self]
      · simp [dget, hf, hm, lookupKV_insertKV_ne _ _ _ _ hmf]
    · by_cases hm : falsyOpt (lookupKV qkvs "mcq") = true
      · simp [dget, hf, hm, lookupKV_insertKV_self]
      · simp [dget, hf, hm]
  · rw [normalize_quiz_obj_eq]
    by_cases hf : falsyOpt (lookupKV qkvs "flashcards") = true
    · by_cases hm : falsyOpt (lookupKV qkvs "mcq") = true
      · simp [dget, hf, hm, lookupKV_insertKV_self]
      · simp [dget, hf, hm, lookupKV_insertKV_self]
    · by_cases hm : falsyOpt (lookupKV qkvs "mcq") = true
      · simp [dget, hf, hm, lookupKV_insertKV_ne _ _ _ _ hfm]
      · simp [dget, hf, hm]
  · intro hm hf
    rw [normalize_quiz_obj_eq]
    simp [dget] at hm hf
    simp [hm, hf]

/-- Claim C4, witness for the amended theorem, at the concrete extractor
outputs `{"nodes": null}` and `{}`. -/
theorem normalization_amended_witness :
    falsyOpt (dget (Json.obj [("nodes", Json.null)]) "nodes") = true
    ∧ normalize_graph (Json.obj [("nodes", Json.null)]) = fallback_graph := by
  exact ⟨rfl, (normalization_amended [("nodes", Json.null)] []).1 rfl⟩

/-- Claim C5. The Text Generation Client never propagates an exception past
its own boundary: a raising external call (`.error e`, any exception)
yields the fixed sentinel string, and a successful call returns the
service's raw `response.text` unchanged. -/
theorem generate_with_gemini_never_raises (e t : String) :
    generate_with_gemini (Except.error e) = "Error generating content"
    ∧ generate_with_gemini (Except.ok t) = t :=
  ⟨rfl, rfl⟩

/-! ### The job registry and the cooperative-scheduling transition system -/

/-- Python `s.strip()` is empty exactly when every character of `s` is
whitespace (in particular for the empty string). -/
theorem py_strip_eq_empty_iff (s : String) :
    (py_strip s = "") ↔ s.toList.all pyIsSpace = true := by
  constructor
  · intro h
    have h0 : ((s.toList.dropWhile pyIsSpace).reverse.dropWhile pyIsSpace).reverse = [] :=
      congrArg String.data h
    rw [List.reverse_eq_nil_iff] at h0
    have h1 : ∀ x ∈ (s.toList.dropWhile pyIsSpace).reverse, pyIsSpace x :=
      List.dropWhile_eq_nil_iff.mp h0
    rw [List.all_eq_true]
    intro x hx
    rw [← List.takeWhile_append_dropWhile (p := pyIsSpace) (l := s.toList)] at hx
    rcases List.mem_append.mp hx with hx | hx
    · exact List.mem_takeWhile_imp hx
    · exact h1 x (by simpa using hx)
  · intro h
    have h1 : s.toList.dropWhile pyIsSpace = [] :=
      List.dropWhile_eq_nil_iff.mpr (fun x hx => List.all_eq_true.mp h x hx)
    unfold py_strip
    rw [h1]
    rfl

/-- One record of the `JOBS` dict: its `"status"` string and its `"result"`
value (`none` models Python `None`, as stored on creation at source
line 147). -/
structure JobRec where
  status : String
  result : Option Json

/-- Progress of one scheduled `process_job` task through its maximal
suspension-free segments: `created` (scheduled by `asyncio.create_task`,
body not started), `awaiting` (ran source lines 65–110 and suspended at the
`await asyncio.gather` of line 111), `finished` (ran lines 111–138 to
completion). -/
inductive Phase where
  | created
  | awaiting
  | finished

/-- Assoc-list lookup keyed by job identifier (a read of a process-wide
dict). -/
def alookup {α : Type} : List (Nat × α) → Nat → Option α
  | [], _ => none
  | (k, v) :: t, j => if k = j then some v else alookup t j

/-- Assoc-list insert-or-replace keyed by job identifier (a write to a
process-wide dict). -/
def aset {α : Type} : List (Nat × α) → Nat → α → List (Nat × α)
  | [], j, v => [(j, v)]
  | (k, w) :: t, j, v => if k = j then (j, v) :: t else (k, w) :: aset t j v

/-- The backend state: the `JOBS` registry (source line 36), the scheduled
orchestration tasks, and the identifier generator.  `str(uuid.uuid4())` is
modelled as a fresh opaque identifier — the specification's data model
treats job ids as globally unique for the process lifetime — and `issued`
records every id `process_endpoint` has returned. -/
structure Sys where
  jobs : List (Nat × JobRec)
  tasks : List (Nat × Phase)
  nextId : Nat
  issued : List Nat

/-- The state at startup: `JOBS = {}`, nothing scheduled. -/
def initSys : Sys := ⟨[], [], 0, []⟩

/-- Source lines 141–149, `process_endpoint` (`POST /process`): content that
is blank after `content.strip()` is rejected with HTTP 400 before anything
is written; otherwise a fresh job id is inserted as
`{"status": "queued", "result": None}`, `process_job` is scheduled with
`asyncio.create_task` (it cannot run before the handler returns), and the id
is returned. -/
def process_endpoint (s : Sys) (content : String) : Except Nat Nat × Sys :=
  if py_strip content = "" then (.error 400, s)
  else
    (.ok s.nextId,
      { jobs := aset s.jobs s.nextId ⟨"queued", none⟩
        tasks := aset s.tasks s.nextId Phase.created
        nextId := s.nextId + 1
        issued := s.issued ++ [s.nextId] })

/-- The first segment of `process_job` (source lines 65–111): set the job's
status to `"processing"` (line 66), build the three prompts, create the
three generation tasks, and suspend at `await asyncio.gather`.  (If the job
id were absent from `JOBS`, line 66 and then the `except` at line 137 would
both raise `KeyError` and the task would die without writing the registry;
this situation is unreachable through the endpoints.) -/
def job_start (s : Sys) (j : Nat) : Sys :=
  match alookup s.jobs j with
  | some r =>
    { s with jobs := aset s.jobs j { r with status := "processing" }
             tasks := aset s.tasks j Phase.awaiting }
  | none => { s with tasks := aset s.tasks j Phase.finished }

/-- The second segment of `process_job` (source lines 111–138), resuming
when `asyncio.gather` returns, with no further `await`: normalize the graph
and quiz outputs (lines 114–122), synthesize narration (line 125) and
commit.  `g1`/`g2`/`g3` are the outcomes of the three external generation
calls (summary, graph and quiz prompts, built from the submitted content);
`tts` is the outcome of `save_tts_mp3(summary_res, job_id)` — the only
operation of this segment that can raise.  Success commits status `"done"`
together with the result dict of lines 128–134; a raise is caught by the
`except` and commits status `"error"` with `{"error": str(e)}`
(lines 136–138).  Either commit is suspension-free, hence atomic for every
other coroutine. -/
def job_finish (s : Sys) (j : Nat) (g1 g2 g3 : Except String String)
    (tts : Except String Unit) : Sys :=
  match alookup s.jobs j with
  | none => { s with tasks := aset s.tasks j Phase.finished }
  | some _ =>
    let summary_res := generate_with_gemini g1
    let graph_res := generate_with_gemini g2
    let quiz_res := generate_with_gemini g3
    let graph_json := normalize_graph (extract_json graph_res)
    let quiz_json := normalize_quiz (extract_json quiz_res)
    match tts with
    | .ok _ =>
      { s with
        jobs := aset s.jobs j ⟨"done", some (Json.obj
          [("summary", Json.str summary_res),
           ("graph", graph_json),
           ("quiz", quiz_json),
           ("audio_path", Json.str (save_tts_mp3_path (toString j)))])⟩
        tasks := aset s.tasks j Phase.finished }
    | .error e =>
      { s with
        jobs := aset s.jobs j ⟨"error", some (Json.obj [("error", Json.str e)])⟩
        tasks := aset s.tasks j Phase.finished }

/-- Last path segment, Python `path.split('/')[-1]`. -/
def lastSeg (p : String) : String :=
  ((p.splitOn "/").getLast?).getD ""

/-- Source lines 151–168, `get_hub` (`GET /hub/{job_id}`): HTTP 404 for an
unknown id, with no status or result payload; otherwise a response dict
carrying the status, extended with the rewritten result for `"done"` and
with the stored result for `"error"`.  `.error 500` models the unhandled
`TypeError`/`KeyError`/`AttributeError` (an internal server error) that
lines 159–164 would raise if a done job's result were `None` or malformed —
states that are provably unreachable. -/
def get_hub (s : Sys) (j : Nat) : Except Nat Json :=
  match alookup s.jobs j with
  | none => .error 404
  | some entry =>
    if entry.status = "done" then
      match entry.result with
      | none => .error 500
      | some res =>
        match dget res "summary", dget res "graph", dget res "quiz" with
        | some sm, some g, some q =>
          match dget res "audio_path" with
          | some ap =>
            if falsy ap then
              .ok (Json.obj [("status", Json.str entry.status),
                ("result", Json.obj [("summary", sm), ("graph", g), ("quiz", q),
                  ("audio_url", Json.null)])])
            else
              match ap with
              | Json.str p =>
                .ok (Json.obj [("status", Json.str entry.status),
                  ("result", Json.obj [("summary", sm), ("graph", g), ("quiz", q),
                    ("audio_url", Json.str ("/audio/" ++ lastSeg p))])])
              | _ => .error 500
          | none =>
            .ok (Json.obj [("status", Json.str entry.status),
              ("result", Json.obj [("summary", sm), ("graph", g), ("quiz", q),
                ("audio_url", Json.null)])])
        | _, _, _ => .error 500
    else if entry.status = "error" then
      .ok (Json.obj [("status", Json.str entry.status),
        ("result", entry.result.getD Json.null)])
    else
      .ok (Json.obj [("status", Json.str entry.status)])

/-- One transition of the cooperative single-threaded scheduler, as
observable by any other coroutine: a submission, or one maximal
suspension-free segment of a scheduled `process_job` task.  The outcomes of
the external calls are parameters of the transition (the environment is
unconstrained). -/
inductive Step : Sys → Sys → Prop where
  | submit (s : Sys) (content : String) (h : py_strip content ≠ "") :
      Step s (process_endpoint s content).2
  | start (s : Sys) (j : Nat) (h : alookup s.tasks j = some Phase.created) :
      Step s (job_start s j)
  | finish (s : Sys) (j : Nat) (g1 g2 g3 : Except String String)
      (tts : Except String Unit) (h : alookup s.tasks j = some Phase.awaiting) :
      Step s (job_finish s j g1 g2 g3 tts)

/-- States reachable from startup. -/
inductive Reachable : Sys → Prop where
  | init : Reachable initSys
  | step {s s' : Sys} : Reachable s → Step s s' → Reachable s'

theorem alookup_aset_self {α : Type} (l : List (Nat × α)) (j : Nat) (v : α) :
    alookup (aset l j v) j = some v := by
  induction l with
  | nil => simp [aset, alookup]
  | cons p t ih =>
    by_cases h : p.1 = j
    · simp [aset, alookup, h]
    · simp [aset, alookup, h, ih]

theorem alookup_aset_ne {α : Type} (l : List (Nat × α)) (j j' : Nat) (v : α)
    (h : j' ≠ j) :
    alookup (aset l j v) j' = alookup l j' := by
  induction l with
  | nil => simp [aset, alookup, Ne.symm h]
  | cons p t ih =>
    by_cases hp : p.1 = j
    · simp [aset, alookup, hp, Ne.symm h]
    · by_cases hp' : p.1 = j'
      · simp [aset, alookup, hp, hp', h]
      · simp [aset, alookup, hp, hp', ih]

/-- The per-job correlation between a task's progress and its registry
record: before the terminal segment a job is `"queued"`/`"processing"` with
result `None`; after it, either `"done"` with the four-field result dict of
source lines 129–134, or `"error"` with the dict of line 138. -/
def statusOk (r : JobRec) : Phase → Prop
  | .created => r.status = "queued" ∧ r.result = none
  | .awaiting => r.status = "processing" ∧ r.result = none
  | .finished =>
      (r.status = "done" ∧ ∃ sm g q p, r.result = some (Json.obj
        [("summary", Json.str sm), ("graph", g), ("quiz", q),
         ("audio_path", Json.str p)]))
    ∨ (r.status = "error" ∧ ∃ e, r.result = some (Json.obj [("error", Json.str e)]))

/-- The reachability invariant of the backend: registry and task table have
the same keys, each record matches its task's phase, every key was issued,
and issued keys are below the generator. -/
structure SysInv (s : Sys) : Prop where
  keys_eq : ∀ j, (alookup s.jobs j).isSome ↔ (alookup s.tasks j).isSome
  phase_ok : ∀ j r ph, alookup s.jobs j = some r → alookup s.tasks j = some ph →
    statusOk r ph
  keys_lt : ∀ j, (alookup s.jobs j).isSome → j < s.nextId
  issued_iff : ∀ j, j ∈ s.issued ↔ (alookup s.jobs j).isSome

theorem inv_init : SysInv initSys := by
  refine ⟨?_, ?_, ?_, ?_⟩
  · intro j
    simp [initSys, alookup]
  · intro j r ph hr hp
    simp [initSys, alookup] at hr
  · intro j hj
    simp [initSys, alookup] at hj
  · intro j
    simp [initSys, alookup]

theorem inv_submit {s : Sys} (content : String) (inv : SysInv s) :
    SysInv (process_endpoint s content).2 := by
  by_cases h : py_strip content = ""
  · unfold process_endpoint
    rw [if_pos h]
    exact inv
  · unfold process_endpoint
    rw [if_neg h]
    show SysInv
      { jobs := aset s.jobs s.nextId ⟨"queued", none⟩
        tasks := aset s.tasks s.nextId Phase.created
        nextId := s.nextId + 1
        issued := s.issued ++ [s.nextId] }
    refine ⟨?_, ?_, ?_, ?_⟩
    · intro j
      by_cases hj : j = s.nextId
      · subst hj
        simp [alookup_aset_self]
      · simp only [alookup_aset_ne _ _ _ _ hj]
        exact inv.keys_eq j
    · intro j r ph hr hp
      by_cases hj : j = s.nextId
      · subst hj
        rw [alookup_aset_self] at hr hp
        cases hr
        cases hp
        exact ⟨rfl, rfl⟩
      · rw [alookup_aset_ne _ _ _ _ hj] at hr hp
        exact inv.phase_ok j r ph hr hp
    · intro j hj
      show j < s.nextId + 1
      by_cases hjn : j = s.nextId
      · omega
      · rw [alookup_aset_ne _ _ _ _ hjn] at hj
        have := inv.keys_lt j hj
        omega
    · intro j
      by_cases hjn : j = s.nextId
      · subst hjn
        simp [alookup_aset_self]
      · simp only [alookup_aset_ne _ _ _ _ hjn, List.mem_append,
          List.mem_singleton, hjn, or_false]
        exact inv.issued_iff j

theorem inv_start {s : Sys} (j : Nat) (inv : SysInv s)
    (h : alookup s.tasks j = some Phase.created) :
    SysInv (job_start s j) := by
  have hjob : (alookup s.jobs j).isSome := (inv.keys_eq j).mpr (by simp [h])
  obtain ⟨r, hr⟩ := Option.isSome_iff_exists.mp hjob
  have hok := inv.phase_ok j r Phase.created hr h
  unfold job_start
  rw [hr]
  show SysInv
    { s with jobs := aset s.jobs j { r with status := "processing" }
             tasks := aset s.tasks j Phase.awaiting }
  refine ⟨?_, ?_, ?_, ?_⟩
  · intro j'
    by_cases hj' : j' = j
    · subst hj'
      simp [alookup_aset_self]
    · simp only [alookup_aset_ne _ _ _ _ hj']
      exact inv.keys_eq j'
  · intro j' r' ph' hr' hp'
    by_cases hj' : j' = j
    · subst hj'
      rw [alookup_aset_self] at hr' hp'
      cases hr'
      cases hp'
      exact ⟨rfl, hok.2⟩
    · rw [alookup_aset_ne _ _ _ _ hj'] at hr' hp'
      exact inv.phase_ok j' r' ph' hr' hp'
  · intro j' hj'
    by_cases hj'' : j' = j
    · subst hj''
      exact inv.keys_lt j' hjob
    · rw [alookup_aset_ne _ _ _ _ hj''] at hj'
      exact inv.keys_lt j' hj'
  · intro j'
    by_cases hj' : j' = j
    · subst hj'
      simp only [alookup_aset_self, Option.isSome_some, iff_true]
      exact (inv.issued_iff j').mpr hjob
    · simp only [alookup_aset_ne _ _ _ _ hj']
      exact inv.issued_iff j'

theorem inv_finish {s : Sys} (j : Nat) (g1 g2 g3 : Except String String)
    (tts : Except String Unit) (inv : SysInv s)
    (h : alookup s.tasks j = some Phase.awaiting) :
    SysInv (job_finish s j g1 g2 g3 tts) := by
  have hjob : (alookup s.jobs j).isSome := (inv.keys_eq j).mpr (by simp [h])
  obtain ⟨r, hr⟩ := Option.isSome_iff_exists.mp hjob
  unfold job_finish
  rw [hr]
  have main : ∀ rec : JobRec, statusOk rec Phase.finished →
      SysInv { s with jobs := aset s.jobs j rec, tasks := aset s.tasks j Phase.finished } := by
    intro rec hrec
    refine ⟨?_, ?_, ?_, ?_⟩
    · intro j'
      by_cases hj' : j' = j
      · subst hj'
        simp [alookup_aset_self]
      · simp only [alookup_aset_ne _ _ _ _ hj']
        exact inv.keys_eq j'
    · intro j' r' ph' hr' hp'
      by_cases hj' : j' = j
      · subst hj'
        rw [alookup_aset_self] at hr' hp'
        cases hr'
        cases hp'
        exact hrec
      · rw [alookup_aset_ne _ _ _ _ hj'] at hr' hp'
        exact inv.phase_ok j' r' ph' hr' hp'
    · intro j' hj'
      by_cases hj'' : j' = j
      · subst hj''
        exact inv.keys_lt j' hjob
      · rw [alookup_aset_ne _ _ _ _ hj''] at hj'
        exact inv.keys_lt j' hj'
    · intro j'
      by_cases hj' : j' = j
      · subst hj'
        simp only [alookup_aset_self, Option.isSome_some, iff_true]
        exact (inv.issued_iff j').mpr hjob
      · simp only [alookup_aset_ne _ _ _ _ hj']
        exact inv.issued_iff j'
  cases tts with
  | ok u =>
    exact main _ (Or.inl ⟨rfl, _, _, _, _, rfl⟩)
  | error e =>
    exact main _ (Or.inr ⟨rfl, e, rfl⟩)

theorem inv_step {s s' : Sys} (inv : SysInv s) (st : Step s s') : SysInv s' := by
  cases st with
  | submit content h => exact inv_submit content inv
  | start j h => exact inv_start j inv h
  | finish j g1 g2 g3 tts h => exact inv_finish j g1 g2 g3 tts inv h

theorem reachable_inv {s : Sys} (h : Reachable s) : SysInv s := by
  induction h with
  | init => exact inv_init
  | step _ st ih => exact inv_step ih st

theorem alookup_submit_ne (s : Sys) (content : String) (j : Nat)
    (hne : j ≠ s.nextId) :
    alookup (process_endpoint s content).2.jobs j = alookup s.jobs j := by
  by_cases h : py_strip content = ""
  · unfold process_endpoint
    rw [if_pos h]
  · unfold process_endpoint
    rw [if_neg h]
    exact alookup_aset_ne _ _ _ _ hne

theorem alookup_job_start_ne (s : Sys) (j0 j : Nat) (hne : j ≠ j0) :
    alookup (job_start s j0).jobs j = alookup s.jobs j := by
  unfold job_start
  cases hj0 : alookup s.jobs j0 with
  | none => rfl
  | some r0 => exact alookup_aset_ne _ _ _ _ hne

theorem alookup_job_finish_ne (s : Sys) (j0 : Nat) (g1 g2 g3 : Except String String)
    (tts : Except String Unit) (j : Nat) (hne : j ≠ j0) :
    alookup (job_finish s j0 g1 g2 g3 tts).jobs j = alookup s.jobs j := by
  unfold job_finish
  cases hj0 : alookup s.jobs j0 with
  | none => rfl
  | some r0 =>
    cases tts with
    | ok u => exact alookup_aset_ne _ _ _ _ hne
    | error e => exact alookup_aset_ne _ _ _ _ hne

theorem job_finish_ok_jobs (s : Sys) (j : Nat) (g1 g2 g3 : Except String String)
    (r : JobRec) (hr : alookup s.jobs j = some r) :
    alookup (job_finish s j g1 g2 g3 (.ok ())).jobs j =
      some ⟨"done", some (Json.obj
        [("summary", Json.str (generate_with_gemini g1)),
         ("graph", normalize_graph (extract_json (generate_with_gemini g2))),
         ("quiz", normalize_quiz (extract_json (generate_with_gemini g3))),
         ("audio_path", Json.str (save_tts_mp3_path (toString j)))])⟩ := by
  unfold job_finish
  rw [hr]
  exact alookup_aset_self _ _ _

theorem job_finish_error_jobs (s : Sys) (j : Nat) (g1 g2 g3 : Except String String)
    (e : String) (r : JobRec) (hr : alookup s.jobs j = some r) :
    alookup (job_finish s j g1 g2 g3 (.error e)).jobs j =
      some ⟨"error", some (Json.obj [("error", Json.str e)])⟩ := by
  unfold job_finish
  rw [hr]
  exact alookup_aset_self _ _ _

/-- Claim C1. In every reachable (externally observable) state, a job has a
populated result exactly when its status is terminal (`"done"`/`"error"`) —
the pair is committed atomically in one suspension-free segment — and once
terminal, the record (status and result together) never changes under any
further transition: the result is populated exactly once. -/
theorem job_result_terminal_atomic (s : Sys) (h : Reachable s) :
    (∀ j r, alookup s.jobs j = some r →
      ((r.status = "done" ∨ r.status = "error") ↔ r.result ≠ none))
    ∧ (∀ s' j r, Step s s' → alookup s.jobs j = some r →
        (r.status = "done" ∨ r.status = "error") → alookup s'.jobs j = some r) := by
  have inv := reachable_inv h
  constructor
  · intro j r hr
    have htask : (alookup s.tasks j).isSome = true := (inv.keys_eq j).mp (by simp [hr])
    obtain ⟨ph, hp⟩ := Option.isSome_iff_exists.mp htask
    have hok := inv.phase_ok j r ph hr hp
    cases ph with
    | created =>
      obtain ⟨h1, h2⟩ := hok
      constructor
      · intro hterm
        rcases hterm with ht | ht <;> rw [h1] at ht <;> exact absurd ht (by decide)
      · intro hres
        rw [h2] at hres
        exact absurd rfl hres
    | awaiting =>
      obtain ⟨h1, h2⟩ := hok
      constructor
      · intro hterm
        rcases hterm with ht | ht <;> rw [h1] at ht <;> exact absurd ht (by decide)
      · intro hres
        rw [h2] at hres
        exact absurd rfl hres
    | finished =>
      rcases hok with ⟨h1, sm, g, q, p, h2⟩ | ⟨h1, e, h2⟩
      · constructor
        · intro _
          rw [h2]
          exact Option.noConfusion
        · intro _
          exact Or.inl h1
      · constructor
        · intro _
          rw [h2]
          exact Option.noConfusion
        · intro _
          exact Or.inr h1
  · intro s' j r hst hr hterm
    have htask : (alookup s.tasks j).isSome = true := (inv.keys_eq j).mp (by simp [hr])
    obtain ⟨ph, hp⟩ := Option.isSome_iff_exists.mp htask
    have hok := inv.phase_ok j r ph hr hp
    have hfin : ph = Phase.finished := by
      cases ph with
      | created =>
        rcases hterm with ht | ht <;> rw [hok.1] at ht <;> exact absurd ht (by decide)
      | awaiting =>
        rcases hterm with ht | ht <;> rw [hok.1] at ht <;> exact absurd ht (by decide)
      | finished => rfl
    subst hfin
    cases hst with
    | submit content hc =>
      have hlt := inv.keys_lt j (by simp [hr])
      rw [alookup_submit_ne s content j (by omega)]
      exact hr
    | start j0 h0 =>
      have hne : j ≠ j0 := by
        intro he
        subst he
        rw [hp] at h0
        exact Phase.noConfusion (Option.some.inj h0)
      rw [alookup_job_start_ne s j0 j hne]
      exact hr
    | finish j0 g1 g2 g3 tts h0 =>
      have hne : j ≠ j0 := by
        intro he
        subst he
        rw [hp] at h0
        exact Phase.noConfusion (Option.some.inj h0)
      rw [alookup_job_finish_ne s j0 g1 g2 g3 tts j hne]
      exact hr

/-- Claim C2. In every reachable state a job with status `"error"` carries
exactly the one-field result `{"error": str(e)}` — no graph, quiz, summary
or audio-path field is ever committed for a failed job — and the error
branch of the orchestrator (any exception `e`, including narration-
synthesis failure) commits exactly that pair. -/
theorem orchestrator_error_commit (s : Sys) (h : Reachable s) :
    (∀ j r, alookup s.jobs j = some r → r.status = "error" →
      ∃ e, r.result = some (Json.obj [("error", Json.str e)]))
    ∧ (∀ j r g1 g2 g3 e, alookup s.jobs j = some r →
        alookup (job_finish s j g1 g2 g3 (.error e)).jobs j =
          some ⟨"error", some (Json.obj [("error", Json.str e)])⟩) := by
  have inv := reachable_inv h
  constructor
  · intro j r hr herr
    have htask : (alookup s.tasks j).isSome = true := (inv.keys_eq j).mp (by simp [hr])
    obtain ⟨ph, hp⟩ := Option.isSome_iff_exists.mp htask
    have hok := inv.phase_ok j r ph hr hp
    cases ph with
    | created =>
      rw [hok.1] at herr
      exact absurd herr (by decide)
    | awaiting =>
      rw [hok.1] at herr
      exact absurd herr (by decide)
    | finished =>
      rcases hok with ⟨h1, _, _, _, _, _⟩ | ⟨_, e, h2⟩
      · rw [h1] at herr
        exact absurd herr (by decide)
      · exact ⟨e, h2⟩
  · intro j r g1 g2 g3 e hr
    exact job_finish_error_jobs s j g1 g2 g3 e r hr

/-- Claim C9. Polling an identifier never issued by `process_endpoint` yields
HTTP 404 and no status or result payload. -/
theorem poll_unknown_id_404 (s : Sys) (j : Nat) (hr : Reachable s)
    (h : j ∉ s.issued) : get_hub s j = .error 404 := by
  have inv := reachable_inv hr
  have hnone : alookup s.jobs j = none := by
    cases hx : alookup s.jobs j with
    | none => rfl
    | some r =>
      exact absurd ((inv.issued_iff j).mpr (by simp [hx])) h
  unfold get_hub
  rw [hnone]

/-- Claim C7. Submitting blank or whitespace-only content is rejected with
HTTP 400 and the whole state — in particular the job registry — is
unchanged: no job is created. -/
theorem blank_submit_rejected (s : Sys) (content : String)
    (h : content.toList.all pyIsSpace = true) :
    process_endpoint s content = (.error 400, s) := by
  unfold process_endpoint
  rw [if_pos ((py_strip_eq_empty_iff content).mpr h)]

/-- Claim C6. A successful submission returns an identifier never returned
before, and polling that identifier in the state the handler returns —
before any orchestration segment has run — reports status `"queued"` or
`"processing"` (in fact `"queued"`), never `"done"` or `"error"`. -/
theorem submit_fresh_then_queued (s : Sys) (content : String) (id : Nat) (s' : Sys)
    (h : Reachable s) (hp : process_endpoint s content = (.ok id, s')) :
    id ∉ s.issued
    ∧ ∃ st, get_hub s' id = .ok (Json.obj [("status", Json.str st)])
        ∧ (st = "queued" ∨ st = "processing") := by
  have inv := reachable_inv h
  by_cases hb : py_strip content = ""
  · unfold process_endpoint at hp
    rw [if_pos hb] at hp
    have := congrArg Prod.fst hp
    simp at this
  · unfold process_endpoint at hp
    rw [if_neg hb] at hp
    have h1 : s.nextId = id := by
      have := congrArg Prod.fst hp
      simpa using this
    have h2 : s' = { jobs := aset s.jobs s.nextId ⟨"queued", none⟩
                     tasks := aset s.tasks s.nextId Phase.created
                     nextId := s.nextId + 1
                     issued := s.issued ++ [s.nextId] } := by
      have := congrArg Prod.snd hp
      simpa using this.symm
    subst h1
    constructor
    · intro hmem
      have := inv.keys_lt s.nextId ((inv.issued_iff s.nextId).mp hmem)
      omega
    · refine ⟨"queued", ?_, Or.inl rfl⟩
      subst h2
      unfold get_hub
      rw [alookup_aset_self]
      rfl

/-- Position of a status string in the forward order
`queued → processing → {done, error}`. -/
def statusRank : String → Nat
  | "queued" => 0
  | "processing" => 1
  | "done" => 2
  | "error" => 2
  | _ => 3

/-- Claim C8. Along every transition from a reachable state, each job's
status only moves forward in `queued → processing → {done, error}` (its
rank never decreases, and the record is never deleted), and the terminal
statuses are absorbing: once `"done"` or `"error"`, the status never
changes again. -/
theorem status_forward_monotone (s s' : Sys) (hr : Reachable s) (hs : Step s s')
    (j : Nat) (r : JobRec) (hj : alookup s.jobs j = some r) :
    ∃ r', alookup s'.jobs j = some r'
      ∧ statusRank r.status ≤ statusRank r'.status
      ∧ ((r.status = "done" ∨ r.status = "error") → r'.status = r.status) := by
  have inv := reachable_inv hr
  cases hs with
  | submit content hc =>
    refine ⟨r, ?_, le_refl _, fun _ => rfl⟩
    have hlt := inv.keys_lt j (by simp [hj])
    rw [alookup_submit_ne s content j (by omega)]
    exact hj
  | start j0 h0 =>
    by_cases hne : j = j0
    · subst hne
      have hok := inv.phase_ok j r Phase.created hj h0
      refine ⟨{ r with status := "processing" }, ?_, ?_, ?_⟩
      · unfold job_start
        rw [hj]
        exact alookup_aset_self _ _ _
      · rw [hok.1]
        show statusRank "queued" ≤ statusRank "processing"
        decide
      · intro hterm
        rcases hterm with ht | ht <;> rw [hok.1] at ht <;> exact absurd ht (by decide)
    · refine ⟨r, ?_, le_refl _, fun _ => rfl⟩
      rw [alookup_job_start_ne s j0 j hne]
      exact hj
  | finish j0 g1 g2 g3 tts h0 =>
    by_cases hne : j = j0
    · subst hne
      have hok := inv.phase_ok j r Phase.awaiting hj h0
      cases tts with
      | ok u =>
        refine ⟨_, job_finish_ok_jobs s j g1 g2 g3 r hj, ?_, ?_⟩
        · rw [hok.1]
          show statusRank "processing" ≤ statusRank "done"
          decide
        · intro hterm
          rcases hterm with ht | ht <;> rw [hok.1] at ht <;> exact absurd ht (by decide)
      | error e =>
        refine ⟨_, job_finish_error_jobs s j g1 g2 g3 e r hj, ?_, ?_⟩
        · rw [hok.1]
          show statusRank "processing" ≤ statusRank "error"
          decide
        · intro hterm
          rcases hterm with ht | ht <;> rw [hok.1] at ht <;> exact absurd ht (by decide)
    · refine ⟨r, ?_, le_refl _, fun _ => rfl⟩
      rw [alookup_job_finish_ne s j0 g1 g2 g3 tts j hne]
      exact hj

/-- Claim C10. If all three generation calls fail (any exceptions
`e1`,`e2`,`e3`) but narration synthesis succeeds, the job still commits
status `"done"` — never `"error"` — with the sentinel string
`"Error generating content"` stored as the summary (it is also the text
passed to narration), the fallback graph, and empty quiz sequences. -/
theorem generation_failure_still_done (s : Sys) (j : Nat) (r : JobRec)
    (e1 e2 e3 : String) (hj : alookup s.jobs j = some r) :
    alookup (job_finish s j (.error e1) (.error e2) (.error e3) (.ok ())).jobs j =
      some ⟨"done", some (Json.obj
        [("summary", Json.str "Error generating content"),
         ("graph", fallback_graph),
         ("quiz", Json.obj [("mcq", Json.arr []), ("flashcards", Json.arr [])]),
         ("audio_path", Json.str ("generated/" ++ toString j ++ ".mp3"))])⟩ := by
  rw [job_finish_ok_jobs s j (.error e1) (.error e2) (.error e3) r hj]
  rfl

/-- A concrete run: one job submitted with content `"hello"`. -/
def sysA : Sys := (process_endpoint initSys "hello").2

/-- The run after the first orchestration segment of job 0. -/
def sysB : Sys := job_start sysA 0

/-- The run after a fully successful terminal segment of job 0. -/
def sysC : Sys :=
  job_finish sysB 0 (.ok "short summary") (.ok "graph text") (.ok "quiz text") (.ok ())

/-- The run after a terminal segment of job 0 in which narration synthesis
raised. -/
def sysD : Sys :=
  job_finish sysB 0 (.ok "short summary") (.ok "graph text") (.ok "quiz text")
    (.error "TTS failed")

theorem reachable_sysA : Reachable sysA :=
  Reachable.step Reachable.init (Step.submit initSys "hello" (by decide))

theorem reachable_sysB : Reachable sysB :=
  Reachable.step reachable_sysA (Step.start sysA 0 rfl)

theorem reachable_sysC : Reachable sysC :=
  Reachable.step reachable_sysB
    (Step.finish sysB 0 (.ok "short summary") (.ok "graph text") (.ok "quiz text")
      (.ok ()) rfl)

theorem reachable_sysD : Reachable sysD :=
  Reachable.step reachable_sysB
    (Step.finish sysB 0 (.ok "short summary") (.ok "graph text") (.ok "quiz text")
      (.error "TTS failed") rfl)

/-- The record of job 0 in `sysC`. -/
def recC : JobRec :=
  ⟨"done", some (Json.obj
    [("summary", Json.str "short summary"),
     ("graph", fallback_graph),
     ("quiz", Json.obj [("mcq", Json.arr []), ("flashcards", Json.arr [])]),
     ("audio_path", Json.str "generated/0.mp3")])⟩

/-- The record of job 0 in `sysD`. -/
def recD : JobRec :=
  ⟨"error", some (Json.obj [("error", Json.str "TTS failed")])⟩

/-- Claim C1, witness, at the reachable state `sysC` and its done job 0. -/
theorem job_result_terminal_atomic_witness :
    Reachable sysC
    ∧ ((recC.status = "done" ∨ recC.status = "error") ↔ recC.result ≠ none) :=
  ⟨reachable_sysC, (job_result_terminal_atomic sysC reachable_sysC).1 0 recC rfl⟩

/-- Claim C2, witness, at the reachable state `sysD` and its failed job 0. -/
theorem orchestrator_error_commit_witness :
    Reachable sysD
    ∧ ∃ e, recD.result = some (Json.obj [("error", Json.str e)]) :=
  ⟨reachable_sysD, (orchestrator_error_commit sysD reachable_sysD).1 0 recD rfl rfl⟩

/-- Claim C6, witness: the first submission from startup. -/
theorem submit_fresh_then_queued_witness :
    Reachable initSys
    ∧ process_endpoint initSys "hello" = (.ok 0, sysA)
    ∧ (0 ∉ initSys.issued
       ∧ ∃ st, get_hub sysA 0 = .ok (Json.obj [("status", Json.str st)])
           ∧ (st = "queued" ∨ st = "processing")) :=
  ⟨Reachable.init, rfl,
    submit_fresh_then_queued initSys "hello" 0 sysA Reachable.init rfl⟩

/-- Claim C7, witness, at the whitespace-only content `"  \t\n "`. -/
theorem blank_submit_rejected_witness :
    ("  \t\n ").toList.all pyIsSpace = true
    ∧ process_endpoint initSys "  \t\n " = (.error 400, initSys) :=
  ⟨by decide, blank_submit_rejected initSys "  \t\n " (by decide)⟩

/-- Claim C8, witness, at the transition `sysA → sysB` that starts job 0. -/
theorem status_forward_monotone_witness :
    Reachable sysA
    ∧ Step sysA sysB
    ∧ ∃ r', alookup sysB.jobs 0 = some r'
        ∧ statusRank "queued" ≤ statusRank r'.status
        ∧ (("queued" = "done" ∨ "queued" = "error") → r'.status = "queued") :=
  ⟨reachable_sysA, Step.start sysA 0 rfl,
    status_forward_monotone sysA sysB reachable_sysA (Step.start sysA 0 rfl) 0
      ⟨"queued", none⟩ rfl⟩

/-- Claim C9, witness: polling id 7, never issued, at startup. -/
theorem poll_unknown_id_404_witness :
    Reachable initSys ∧ 7 ∉ initSys.issued ∧ get_hub initSys 7 = .error 404 :=
  ⟨Reachable.init, by decide, poll_unknown_id_404 initSys 7 Reachable.init (by decide)⟩

/-- Claim C10, witness, at `sysB` with all three generation calls failing and
narration succeeding. -/
theorem generation_failure_still_done_witness :
    alookup sysB.jobs 0 = some ⟨"processing", none⟩
    ∧ alookup (job_finish sysB 0 (.error "quota") (.error "quota") (.error "quota")
        (.ok ())).jobs 0 =
      some ⟨"done", some (Json.obj
        [("summary", Json.str "Error generating content"),
         ("graph", fallback_graph),
         ("quiz", Json.obj [("mcq", Json.arr []), ("flashcards", Json.arr [])]),
         ("audio_path", Json.str ("generated/" ++ toString 0 ++ ".mp3"))])⟩ :=
  ⟨rfl, generation_failure_still_done sysB 0 ⟨"processing", none⟩
    "quota" "quota" "quota" rfl⟩
